import Mathlib

/-!
Verification of the z_io stream-handle abstraction (src/z_io.h).

Shallow embedding:
* `zio_ll` (C `long long`) is modelled as `Int`; all pointer arithmetic on a
  memory region `begin/pos/end` is modelled as integer offsets from `begin`
  (so `begin = 0` and `end = buf.length`), the standard index model suggested
  by the spec's own design notes.
* A memory-backed handle (`handle->data.mem` plus `last_error` and the
  operation table bound by the factory) becomes `MemHandle`: the bytes
  between `begin` and `end` (`buf`), the position offset (`pos : Int`),
  the write operation bound at construction (`kind`: `rw` binds
  `zio__memory_write`, `ro` binds `zio__const_memory_write`), and the
  `last_error` string (`none` models a NULL pointer).
* Caller buffers passed to read/write are explicit `List UInt8` values;
  `memcpy(dst, src, n)` becomes overwriting the first `n` bytes of a list.
* File-backed handles delegate to the C standard library (`fopen`, `fread`,
  `fseek`, `ftell`); those externals are modelled from ISO C semantics
  (environment models, each marked as such), while `zio__file_*` and the
  mode-string construction of `zio_open_file` are translated from the source.
-/

namespace ZIO

/-- `ZIO_ERROR` from the source's anonymous enum, as a `zio_ll` value. -/
def ZIO_ERROR : Int := -1

/-- `ZIO_OK` from the source's anonymous enum. -/
def ZIO_OK : Int := 0

/-- The `ZIOSeek` enum: `ZIO_SEEK_SET`, `ZIO_SEEK_CUR`, `ZIO_SEEK_END`.
The C `switch` in `zio__memory_seek` has a `default` branch, but it is
unreachable for values of the enum type, which has exactly these three
members; the embedding quantifies over the enum. -/
inductive ZIOSeek where
  | seekSet
  | seekCur
  | seekEnd
deriving DecidableEq

/-- Which write operation the factory bound into the handle's operation
table: `rw` for `zio_open_memory` (writes go to `zio__memory_write`),
`ro` for `zio_open_const_memory` (writes go to `zio__const_memory_write`).
All other operations are shared between the two memory kinds. -/
inductive MemKind where
  | rw
  | ro
deriving DecidableEq

/-- State of a memory-backed `ZIOHandle`: `buf` is the byte region
`[begin, end)` of the caller's buffer, `pos` is the offset
`data.mem.pos - data.mem.begin`, `lastError` is the `last_error` field
(`none` = NULL), and `kind` records which write operation was bound. -/
structure MemHandle where
  kind : MemKind
  buf : List UInt8
  pos : Int
  lastError : Option String
deriving DecidableEq

/-- `zio__zero_handle`: `memset(handle, 0, sizeof(ZIOHandle))`. All pointers
become NULL and the region empties; the zeroed handle has no operations
bound (its function pointers are NULL), so `kind` is a mere placeholder. -/
def zio__zero_handle : MemHandle :=
  { kind := MemKind.rw, buf := [], pos := 0, lastError := none }

/-- `zio__set_error`: stores the error string in `last_error` and returns
`ZIO_ERROR`. -/
def zio__set_error (h : MemHandle) (error_string : String) : Int × MemHandle :=
  (ZIO_ERROR, { h with lastError := some error_string })

/-- `zio__memory_size`: `end - begin`, i.e. the region length. -/
def zio__memory_size (h : MemHandle) : Int :=
  (h.buf.length : Int)

/-- `zio__memory_seek`: computes `new_pos` from `whence` and `offset`
(`begin = 0`, `end = buf.length` in the index model), clamps it first below
to `begin` then above to `end` exactly as the two successive `if`s do,
stores it, and returns the offset from `begin`. -/
def zio__memory_seek (h : MemHandle) (offset : Int) (whence : ZIOSeek) :
    Int × MemHandle :=
  let new_pos : Int :=
    match whence with
    | ZIOSeek.seekSet => 0 + offset
    | ZIOSeek.seekCur => h.pos + offset
    | ZIOSeek.seekEnd => (h.buf.length : Int) + offset
  let new_pos := if new_pos < 0 then 0 else new_pos
  let new_pos := if new_pos > (h.buf.length : Int) then (h.buf.length : Int) else new_pos
  (new_pos, { h with pos := new_pos })

/-- `zio__memory_read`: rejects `size <= 0` via `zio__set_error`, otherwise
clamps the transfer length to `end - pos`, copies that many bytes from the
region into the front of the destination buffer (`memcpy(destination,
handle->data.mem.pos, total_bytes)`), advances `pos`, and returns the count.
Result: (return value, destination buffer after the call, handle after). -/
def zio__memory_read (h : MemHandle) (destination : List UInt8) (size : Int) :
    Int × List UInt8 × MemHandle :=
  if size ≤ 0 then
    let e := zio__set_error h "Invalid size"
    (e.1, destination, e.2)
  else
    let mem_available : Int := (h.buf.length : Int) - h.pos
    let total_bytes : Int := if size > mem_available then mem_available else size
    let n : Nat := total_bytes.toNat
    let copied : List UInt8 := (h.buf.drop h.pos.toNat).take n
    (total_bytes, copied ++ destination.drop n, { h with pos := h.pos + total_bytes })

/-- `zio__memory_write`: rejects `size <= 0` via `zio__set_error`, otherwise
clamps the transfer length to `end - pos`, copies that many bytes from the
source buffer into the region at `pos` (`memcpy(handle->data.mem.pos,
source, total_bytes)`), advances `pos`, and returns the count. -/
def zio__memory_write (h : MemHandle) (source : List UInt8) (size : Int) :
    Int × MemHandle :=
  if size ≤ 0 then
    zio__set_error h "Invalid size"
  else
    let mem_available : Int := (h.buf.length : Int) - h.pos
    let total_bytes : Int := if size > mem_available then mem_available else size
    let n : Nat := total_bytes.toNat
    let buf' : List UInt8 :=
      h.buf.take h.pos.toNat ++ source.take n ++ h.buf.drop (h.pos.toNat + n)
    (total_bytes, { h with buf := buf', pos := h.pos + total_bytes })

/-- `zio__const_memory_write`: unconditionally
`zio__set_error(handle, "Cannot write to const memory")`. -/
def zio__const_memory_write (h : MemHandle) (_source : List UInt8) (_size : Int) :
    Int × MemHandle :=
  zio__set_error h "Cannot write to const memory"

/-- `zio_write` (the inline dispatcher `handle->write(...)`) restricted to
memory-backed handles: dispatches to the write operation the factory bound. -/
def zio_write (h : MemHandle) (source : List UInt8) (size : Int) : Int × MemHandle :=
  match h.kind with
  | MemKind.rw => zio__memory_write h source size
  | MemKind.ro => zio__const_memory_write h source size

/-- `zio_open_memory`: the `memory` pointer is modelled as a `Nat` address
(`0` = NULL) with `contents` the bytes it points at. After
`zio__zero_handle`, fails via `zio__set_error` iff the pointer is NULL or
`size < 0`; on success binds the region (`begin = memory`,
`pos = begin`, `end = begin + size`) and the mutable-memory operations.
Result: (`zio_result`, handle state after the call). -/
def zio_open_memory (memory : Nat) (contents : List UInt8) (size : Int) :
    Int × MemHandle :=
  if memory = 0 ∨ size < 0 then
    zio__set_error zio__zero_handle "Invalid memory or size"
  else
    (ZIO_OK, { kind := MemKind.rw, buf := contents, pos := 0, lastError := none })

/-- `zio_open_const_memory`: identical to `zio_open_memory` except that the
bound write operation is `zio__const_memory_write`. -/
def zio_open_const_memory (memory : Nat) (contents : List UInt8) (size : Int) :
    Int × MemHandle :=
  if memory = 0 ∨ size < 0 then
    zio__set_error zio__zero_handle "Invalid memory or size"
  else
    (ZIO_OK, { kind := MemKind.ro, buf := contents, pos := 0, lastError := none })

/-- The memory-handle invariant of the spec: `begin ≤ position ≤ end`,
i.e. `0 ≤ pos ≤ buf.length` in the index model. -/
def MemInv (h : MemHandle) : Prop :=
  0 ≤ h.pos ∧ h.pos ≤ (h.buf.length : Int)

instance (h : MemHandle) : Decidable (MemInv h) := by
  unfold MemInv; infer_instance

/-! ## File backend

`zio_open_file` builds a `fopen` mode string from the `ZIOMode` flags; the
construction below is translated from the source, and the meaning of the
resulting strings is an environment model of ISO C `fopen` (C11 7.21.5.3). -/

/-- `ZIOM_WRITE = 1 << 0`. -/
def ZIOM_WRITE : Nat := 1

/-- `ZIOM_READ = 1 << 1`. -/
def ZIOM_READ : Nat := 2

/-- `zio__test_flag`: `(flags & test) == test`. -/
def zio__test_flag (flags test : Nat) : Bool :=
  flags &&& test == test

/-- The mode string `zio_open_file` builds (as a list of characters):
`'w'` if WRITE is set, else `'r'` if READ is set; then `'+'` if both
WRITE and READ are set; then always `'b'`. -/
def zio_mode_flags (mode : Nat) : List Char :=
  (if zio__test_flag mode ZIOM_WRITE then ['w']
   else if zio__test_flag mode ZIOM_READ then ['r']
   else []) ++
  (if zio__test_flag mode (ZIOM_WRITE ||| ZIOM_READ) then ['+'] else []) ++
  ['b']

/-- What an ISO C `fopen` mode string means for an existing or absent file. -/
structure FopenBehavior where
  canRead : Bool
  canWrite : Bool
  truncatesExisting : Bool
  createsIfAbsent : Bool
  failsIfAbsent : Bool
deriving DecidableEq

/-- Environment model of ISO C `fopen` (C11 7.21.5.3) for the binary mode
strings the source can build: `"rb"` opens an existing file for reading and
fails if it is absent; `"wb"` truncates to zero length or creates, for
writing; `"r+b"` opens an existing file for update; `"w+b"` truncates to
zero length or creates, for update. Other strings are invalid (`none`). -/
def fopenBehavior : List Char → Option FopenBehavior
  | ['r', 'b'] =>
    some { canRead := true, canWrite := false, truncatesExisting := false,
           createsIfAbsent := false, failsIfAbsent := true }
  | ['w', 'b'] =>
    some { canRead := false, canWrite := true, truncatesExisting := true,
           createsIfAbsent := true, failsIfAbsent := false }
  | ['r', '+', 'b'] =>
    some { canRead := true, canWrite := true, truncatesExisting := false,
           createsIfAbsent := false, failsIfAbsent := true }
  | ['w', '+', 'b'] =>
    some { canRead := true, canWrite := true, truncatesExisting := true,
           createsIfAbsent := true, failsIfAbsent := false }
  | _ => none

/-- State of an open `FILE*` stream: its byte contents, the file position
indicator, and the error indicator `ferror` reads. An environment model of
the C stdio stream (the `zio__file_*` operations are translated against it). -/
structure FileState where
  contents : List UInt8
  pos : Nat
  errorFlag : Bool
deriving DecidableEq

/-- Environment model of `fread(destination, size, 1, stream)` (C11
7.21.8.1) for a stream with no pending I/O failure: up to `size * 1` bytes
are read; the return value is the number of COMPLETE elements read (here 0
or 1, and 0 when `size = 0`); the position indicator advances by the number
of characters successfully read, so a partial trailing element is consumed
but not counted. Result: (elements read, bytes placed in the destination,
stream after). -/
def fread1 (st : FileState) (size : Nat) : Nat × List UInt8 × FileState :=
  let remaining : Nat := st.contents.length - st.pos
  let bytesRead : Nat := min size remaining
  let data : List UInt8 := (st.contents.drop st.pos).take bytesRead
  let count : Nat := if 0 < size ∧ size ≤ remaining then 1 else 0
  (count, data, { st with pos := st.pos + bytesRead })

/-- `zio__file_read`: `read_count = fread(destination, size, 1, f)`; if that
is 0 and `ferror` is set, fail via the error path (modelled by returning
`ZIO_ERROR`); otherwise return `read_count * size`. The `size` argument is
non-negative here because `fread` takes it as `size_t`. Result: (return
value, bytes placed in the destination, stream after). -/
def zio__file_read (st : FileState) (size : Nat) : Int × List UInt8 × FileState :=
  let r := fread1 st size
  if r.1 = 0 ∧ r.2.2.errorFlag then
    (ZIO_ERROR, r.2.1, r.2.2)
  else
    ((r.1 * size : Nat), r.2.1, r.2.2)

/-- Environment model of `fseek` + `ftell` on a binary stream (C11 7.21.9):
the target offset is computed from the whence; a negative target makes
`fseek` fail (the stream is unchanged), otherwise the position indicator is
set (seeking past end-of-data is permitted). `zio__file_seek` returns
`ZIO_ERROR` on failure, else `ftell`, i.e. the new position. -/
def zio__file_seek (st : FileState) (offset : Int) (whence : ZIOSeek) :
    Int × FileState :=
  let target : Int :=
    match whence with
    | ZIOSeek.seekSet => offset
    | ZIOSeek.seekCur => (st.pos : Int) + offset
    | ZIOSeek.seekEnd => (st.contents.length : Int) + offset
  if target < 0 then
    (ZIO_ERROR, st)
  else
    (target, { st with pos := target.toNat })

/-- `zio__file_size`: `pos = zio_tell(handle)` (which is
`seek(handle, 0, ZIO_SEEK_CUR)`); if that is `ZIO_ERROR`, return
`ZIO_ERROR`; else `size = seek(0, ZIO_SEEK_END)`, then
`seek(pos, ZIO_SEEK_SET)` to restore, and return `size`. -/
def zio__file_size (st : FileState) : Int × FileState :=
  let tell := zio__file_seek st 0 ZIOSeek.seekCur
  if tell.1 = ZIO_ERROR then
    (ZIO_ERROR, tell.2)
  else
    let toEnd := zio__file_seek tell.2 0 ZIOSeek.seekEnd
    let restore := zio__file_seek toEnd.2 tell.1 ZIOSeek.seekSet
    (toEnd.1, restore.2)

/-! ## Claims -/

/-- C1: for every memory-backed handle and every seek call with a valid
whence (the three enum members) and any offset, the candidate position is
clamped into `[0, N]` where `N` is the capacity, the call never fails
(`last_error` untouched, non-negative return), and the return value is the
resulting absolute offset from `begin`. -/
theorem C1_memory_seek_clamps (h : MemHandle) (offset : Int) (whence : ZIOSeek) :
    0 ≤ (zio__memory_seek h offset whence).1 ∧
    (zio__memory_seek h offset whence).1 ≤ (h.buf.length : Int) ∧
    (zio__memory_seek h offset whence).2.pos = (zio__memory_seek h offset whence).1 ∧
    (zio__memory_seek h offset whence).2.lastError = h.lastError := by
  unfold zio__memory_seek
  cases whence <;> dsimp only <;> split_ifs <;> simp_all

/-- C3: every write through a handle whose bound write operation is the
const-memory one (as `zio_open_const_memory` binds on success) returns
`ZIO_ERROR` with the "Cannot write to const memory" error string and leaves
the position and every byte of the backing buffer unchanged. -/
theorem C3_const_write_fails (h : MemHandle) (source : List UInt8) (size : Int)
    (hk : h.kind = MemKind.ro) :
    (zio_write h source size).1 = ZIO_ERROR ∧
    (zio_write h source size).2.pos = h.pos ∧
    (zio_write h source size).2.buf = h.buf ∧
    (zio_write h source size).2.lastError = some "Cannot write to const memory" ∧
    (∀ (p : Nat) (c : List UInt8) (n : Int),
      (zio_open_const_memory p c n).1 = ZIO_OK →
        (zio_open_const_memory p c n).2.kind = MemKind.ro) := by
  refine ⟨?_, ?_, ?_, ?_, ?_⟩ <;>
    first
    | simp [zio_write, hk, zio__const_memory_write, zio__set_error]
    | · intro p c n
        unfold zio_open_const_memory
        split_ifs <;> simp [zio__set_error, ZIO_ERROR, ZIO_OK]

/-- C3 witness: a concrete const-memory handle at position 1. -/
theorem C3_const_write_fails_witness :
    (zio_write ⟨MemKind.ro, [10, 20, 30], 1, none⟩ [7] 1).1 = ZIO_ERROR :=
  (C3_const_write_fails ⟨MemKind.ro, [10, 20, 30], 1, none⟩ [7] 1 (by decide)).1

/-- C6 counterexample: opening with `ZIOM_WRITE | ZIOM_READ` builds the
mode string `"w+b"`, and ISO C `w+` truncates an existing file to zero
length — it does not preserve the existing contents as the claim states. -/
theorem C6_counterexample :
    zio_mode_flags (ZIOM_WRITE ||| ZIOM_READ) = ['w', '+', 'b'] ∧
    (fopenBehavior (zio_mode_flags (ZIOM_WRITE ||| ZIOM_READ))).map
      FopenBehavior.truncatesExisting = some true ∧
    ¬ (fopenBehavior (zio_mode_flags (ZIOM_WRITE ||| ZIOM_READ))).map
      FopenBehavior.truncatesExisting = some false := by
  decide

/-- C6 (amended): WRITE alone builds `"wb"` (truncate-and-write, creating
if absent); READ alone builds `"rb"` (read-only, failing if the file is
absent); WRITE|READ builds `"w+b"`, which creates the file if absent and
TRUNCATES an existing file, opening it for update. -/
theorem C6_mode_flag_encoding :
    fopenBehavior (zio_mode_flags ZIOM_WRITE) =
      some { canRead := false, canWrite := true, truncatesExisting := true,
             createsIfAbsent := true, failsIfAbsent := false } ∧
    fopenBehavior (zio_mode_flags ZIOM_READ) =
      some { canRead := true, canWrite := false, truncatesExisting := false,
             createsIfAbsent := false, failsIfAbsent := true } ∧
    fopenBehavior (zio_mode_flags (ZIOM_WRITE ||| ZIOM_READ)) =
      some { canRead := true, canWrite := true, truncatesExisting := true,
             createsIfAbsent := true, failsIfAbsent := false } := by
  decide

/-- C7: code bug. `zio__file_read` calls `fread(destination, size, 1, f)`
(element size `size`, count 1), so on a file with 10 bytes remaining a
15-byte request returns `0 * 15 = 0` — not the 10 bytes the claim (and the
header's own "Returns bytes read" contract) require — even though the 10
remaining bytes are consumed (the position indicator advances to 10). -/
theorem C7_file_read_partial_returns_zero :
    (zio__file_read { contents := List.replicate 10 0, pos := 0, errorFlag := false } 15).1
      = 0 ∧
    (zio__file_read { contents := List.replicate 10 0, pos := 0, errorFlag := false } 15).2.2.pos
      = 10 := by
  decide

/-- C10: a read or write on a memory-backed handle with a requested count
of zero or negative returns `ZIO_ERROR`, sets `last_error` to
"Invalid size", and leaves the position, the backing buffer and the
destination buffer unchanged. -/
theorem C10_zero_or_negative_size_rejected (h : MemHandle)
    (destination source : List UInt8) (size : Int) (hsz : size ≤ 0) :
    (zio__memory_read h destination size).1 = ZIO_ERROR ∧
    (zio__memory_read h destination size).2.1 = destination ∧
    (zio__memory_read h destination size).2.2.pos = h.pos ∧
    (zio__memory_read h destination size).2.2.buf = h.buf ∧
    (zio__memory_read h destination size).2.2.lastError = some "Invalid size" ∧
    (zio__memory_write h source size).1 = ZIO_ERROR ∧
    (zio__memory_write h source size).2.pos = h.pos ∧
    (zio__memory_write h source size).2.buf = h.buf ∧
    (zio__memory_write h source size).2.lastError = some "Invalid size" := by
  simp [zio__memory_read, zio__memory_write, hsz, zio__set_error]

/-- C10 witness: a zero-byte read request at a concrete handle. -/
theorem C10_zero_or_negative_size_rejected_witness :
    (zio__memory_read ⟨MemKind.rw, [1, 2], 0, none⟩ [0, 0] 0).1 = ZIO_ERROR :=
  (C10_zero_or_negative_size_rejected ⟨MemKind.rw, [1, 2], 0, none⟩ [0, 0] [9] 0
    (by decide)).1

/-- Helper: a read whose request exceeds the remaining space transfers
exactly the remaining bytes and leaves the position at the end. -/
theorem memory_read_clamped (h : MemHandle) (d : List UInt8) (size : Int)
    (h0 : 0 ≤ h.pos) (h1 : h.pos ≤ (h.buf.length : Int))
    (hbig : (h.buf.length : Int) - h.pos < size) :
    zio__memory_read h d size =
      ((h.buf.length : Int) - h.pos,
       h.buf.drop h.pos.toNat ++ d.drop (h.buf.length - h.pos.toNat),
       { h with pos := (h.buf.length : Int) }) := by
  have hs : ¬ size ≤ 0 := by omega
  have htn : ((h.buf.length : Int) - h.pos).toNat = h.buf.length - h.pos.toNat := by
    omega
  have hlen : (h.buf.drop h.pos.toNat).length ≤ h.buf.length - h.pos.toNat := by
    simp
  have hpe : h.pos + ((h.buf.length : Int) - h.pos) = (h.buf.length : Int) := by
    omega
  unfold zio__memory_read
  rw [if_neg hs]
  simp only [gt_iff_lt, if_pos hbig, htn, hpe, List.take_of_length_le hlen]

/-- Helper: a positive-size read at the very end of the region transfers
nothing and changes nothing. -/
theorem memory_read_at_end (h : MemHandle) (d : List UInt8) (size : Int)
    (hpos : h.pos = (h.buf.length : Int)) (hs : 0 < size) :
    zio__memory_read h d size = (0, d, h) := by
  have hs' : ¬ size ≤ 0 := by omega
  have hav : (h.buf.length : Int) - h.pos = 0 := by omega
  unfold zio__memory_read
  rw [if_neg hs']
  simp [hav, hs]

/-- C2: the invariant `begin ≤ position ≤ end` holds after successful
construction by either memory factory and is preserved by seek (which
clamps), read and write (which clamp the transfer length to the remaining
space before advancing); the source buffer is assumed to hold the
requested bytes, as `memcpy` requires. -/
theorem C2_memory_invariant_preserved (h : MemHandle) (offset size : Int)
    (whence : ZIOSeek) (source destination : List UInt8)
    (hinv : MemInv h) (hsrc : size ≤ (source.length : Int)) :
    MemInv (zio__memory_seek h offset whence).2 ∧
    MemInv (zio__memory_read h destination size).2.2 ∧
    MemInv (zio__memory_write h source size).2 ∧
    (∀ (p : Nat) (c : List UInt8) (n : Int),
      (zio_open_memory p c n).1 = ZIO_OK → MemInv (zio_open_memory p c n).2) ∧
    (∀ (p : Nat) (c : List UInt8) (n : Int),
      (zio_open_const_memory p c n).1 = ZIO_OK →
        MemInv (zio_open_const_memory p c n).2) := by
  obtain ⟨h0, h1⟩ := hinv
  refine ⟨?_, ?_, ?_, ?_, ?_⟩
  · unfold zio__memory_seek MemInv
    cases whence <;> dsimp only <;> split_ifs <;> constructor <;> omega
  · unfold zio__memory_read zio__set_error MemInv
    split_ifs with hs
    · exact ⟨h0, h1⟩
    · dsimp only
      constructor <;> omega
  · unfold zio__memory_write zio__set_error MemInv
    split_ifs with hs
    · exact ⟨h0, h1⟩
    · simp_all [List.length_append, List.length_take, List.length_drop]
      omega
  · intro p c n
    unfold zio_open_memory zio__set_error
    split_ifs <;> simp_all [ZIO_ERROR, ZIO_OK, MemInv]
  · intro p c n
    unfold zio_open_const_memory zio__set_error
    split_ifs <;> simp_all [ZIO_ERROR, ZIO_OK, MemInv]

/-- C2 witness: the invariant after a far out-of-range seek on a concrete
3-byte handle. -/
theorem C2_memory_invariant_preserved_witness :
    MemInv (zio__memory_seek ⟨MemKind.rw, [1, 2, 3], 1, none⟩ 50 ZIOSeek.seekSet).2 :=
  (C2_memory_invariant_preserved ⟨MemKind.rw, [1, 2, 3], 1, none⟩ 50 2 ZIOSeek.seekSet
    [8, 8] [0] (by constructor <;> decide) (by decide)).1

/-- C5: a read requesting more than `end - position` transfers exactly the
remaining `end - position` bytes into the destination and sets the position
to `end`; a following positive-size read returns 0 with the position
unchanged and without setting an error. -/
theorem C5_boundary_read (h : MemHandle) (destination destination2 : List UInt8)
    (size size2 : Int) (hinv : MemInv h)
    (hbig : (h.buf.length : Int) - h.pos < size) (hpos2 : 0 < size2) :
    (zio__memory_read h destination size).1 = (h.buf.length : Int) - h.pos ∧
    (zio__memory_read h destination size).2.1 =
      h.buf.drop h.pos.toNat ++ destination.drop (h.buf.length - h.pos.toNat) ∧
    (zio__memory_read h destination size).2.2.pos = (h.buf.length : Int) ∧
    (zio__memory_read (zio__memory_read h destination size).2.2 destination2 size2).1
      = 0 ∧
    (zio__memory_read (zio__memory_read h destination size).2.2 destination2 size2).2.2.pos
      = (h.buf.length : Int) ∧
    (zio__memory_read (zio__memory_read h destination size).2.2 destination2 size2).2.2.lastError
      = h.lastError := by
  obtain ⟨h0, h1⟩ := hinv
  rw [memory_read_clamped h destination size h0 h1 hbig]
  rw [memory_read_at_end _ destination2 size2 rfl hpos2]
  exact ⟨rfl, rfl, rfl, rfl, rfl, rfl⟩

/-- C5 witness: a 5-byte request on a 3-byte buffer at position 1 returns
the 2 remaining bytes. -/
theorem C5_boundary_read_witness :
    (zio__memory_read ⟨MemKind.rw, [1, 2, 3], 1, none⟩ [0, 0, 0, 0] 5).1 = (3 : Int) - 1 :=
  (C5_boundary_read ⟨MemKind.rw, [1, 2, 3], 1, none⟩ [0, 0, 0, 0] [9] 5 2
    (by constructor <;> decide) (by decide) (by decide)).1

/-- Helper: `zio__file_size` returns the stream length and restores the
stream to exactly its prior state. -/
theorem file_size_spec (st : FileState) :
    zio__file_size st = ((st.contents.length : Int), st) := by
  have hp : ¬ ((st.pos : Int) + 0 < 0) := by omega
  have hl : ¬ ((st.contents.length : Int) + 0 < 0) := by omega
  have hl' : ¬ ((st.contents.length : Int) < 0) := by omega
  have hp' : ¬ ((st.pos : Int) < 0) := by omega
  have hpe : ¬ ((st.pos : Int) + 0 = ZIO_ERROR) := by unfold ZIO_ERROR; omega
  have hpe' : ¬ ((st.pos : Int) = ZIO_ERROR) := by unfold ZIO_ERROR; omega
  unfold zio__file_size zio__file_seek
  simp [hp, hl, hl', hp', hpe, hpe']

/-- C8: two consecutive `size` calls on a file handle return the same value,
neither changes the position, and a subsequent `tell`
(`seek(0, ZIO_SEEK_CUR)`) returns the same position as before the calls. -/
theorem C8_file_size_idempotent (st : FileState) :
    (zio__file_size ((zio__file_size st).2)).1 = (zio__file_size st).1 ∧
    (zio__file_size st).2.pos = st.pos ∧
    (zio__file_size ((zio__file_size st).2)).2.pos = st.pos ∧
    (zio__file_seek ((zio__file_size ((zio__file_size st).2)).2) 0 ZIOSeek.seekCur).1
      = (zio__file_seek st 0 ZIOSeek.seekCur).1 := by
  simp [file_size_spec]

/-- C9: the memory factories fail exactly when the pointer is NULL or the
length is negative, setting the "Invalid memory or size" error; on success
the position is `begin`, and when the caller's buffer indeed holds the
declared number of bytes (the C contract for the pointer argument), `size`
returns the given length. -/
theorem C9_memory_factories (memory : Nat) (contents : List UInt8) (size : Int) :
    ((zio_open_memory memory contents size).1 = ZIO_ERROR ↔ (memory = 0 ∨ size < 0)) ∧
    ((zio_open_memory memory contents size).1 = ZIO_ERROR →
      (zio_open_memory memory contents size).2.lastError
        = some "Invalid memory or size") ∧
    ((zio_open_memory memory contents size).1 = ZIO_OK →
      (zio_open_memory memory contents size).2.pos = 0 ∧
      ((contents.length : Int) = size →
        zio__memory_size (zio_open_memory memory contents size).2 = size)) ∧
    ((zio_open_const_memory memory contents size).1 = ZIO_ERROR
      ↔ (memory = 0 ∨ size < 0)) ∧
    ((zio_open_const_memory memory contents size).1 = ZIO_ERROR →
      (zio_open_const_memory memory contents size).2.lastError
        = some "Invalid memory or size") ∧
    ((zio_open_const_memory memory contents size).1 = ZIO_OK →
      (zio_open_const_memory memory contents size).2.pos = 0 ∧
      ((contents.length : Int) = size →
        zio__memory_size (zio_open_const_memory memory contents size).2 = size)) := by
  unfold zio_open_memory zio_open_const_memory zio__memory_size zio__set_error
  split_ifs with hc <;> simp_all [ZIO_ERROR, ZIO_OK]

/-- C9 witness: a non-null pointer with a negative declared length fails
with `ZIO_ERROR`. -/
theorem C9_memory_factories_witness :
    (zio_open_memory 1 [] (-3)).1 = ZIO_ERROR :=
  ((C9_memory_factories 1 [] (-3)).1).mpr (Or.inr (by decide))

/-- Helper: seeking to offset 0 from the start always lands at `begin`. -/
theorem memory_seek_set_zero (h : MemHandle) :
    zio__memory_seek h 0 ZIOSeek.seekSet = (0, { h with pos := 0 }) := by
  have hz : ¬ ((0 : Int) + 0 < 0) := by omega
  have hn : ¬ ((0 : Int) + 0 > (h.buf.length : Int)) := by omega
  unfold zio__memory_seek
  simp [hz, hn]

/-- Helper: writing `s.length` bytes at position 0 with enough capacity
stores `s` at the front of the region and advances the position. -/
theorem memory_write_at_zero (k : MemKind) (contents s : List UInt8)
    (e : Option String) (hs : 0 < s.length) (hcap : s.length ≤ contents.length) :
    zio__memory_write ⟨k, contents, 0, e⟩ s (s.length : Int)
      = ((s.length : Int), ⟨k, s ++ contents.drop s.length, (s.length : Int), e⟩) := by
  have h1 : ¬ ((s.length : Int) ≤ 0) := by omega
  have h2 : ¬ ((s.length : Int) > (contents.length : Int) - 0) := by omega
  unfold zio__memory_write
  rw [if_neg h1]
  dsimp only
  rw [if_neg h2]
  simp [List.take_length]

/-- Helper: reading the length of a prefix from position 0 returns exactly
that prefix and fills a destination buffer of the same length with it. -/
theorem memory_read_front (k : MemKind) (s t d : List UInt8) (e : Option String)
    (hs : 0 < s.length) (hd : d.length = s.length) :
    zio__memory_read ⟨k, s ++ t, 0, e⟩ d (s.length : Int)
      = ((s.length : Int), s, ⟨k, s ++ t, (s.length : Int), e⟩) := by
  have h1 : ¬ ((s.length : Int) ≤ 0) := by omega
  have h2 : ¬ ((s.length : Int) > (((s ++ t).length : Nat) : Int) - 0) := by
    rw [List.length_append]
    push_cast
    omega
  have hdrop : d.drop s.length = [] := by
    rw [← hd]
    exact List.drop_length d
  unfold zio__memory_read
  rw [if_neg h1]
  dsimp only
  rw [if_neg h2]
  simp [List.take_left, hdrop]

/-- C4: writing a byte sequence `s` (with `0 < s.length ≤ capacity`) to a
fresh mutable-memory handle, seeking back to 0 from the start, then reading
`s.length` bytes returns `s.length` from both the write and the read and
fills a destination buffer of that length byte-for-byte with `s`. -/
theorem C4_roundtrip (s contents destination : List UInt8)
    (hs : 0 < s.length) (hcap : s.length ≤ contents.length)
    (hd : destination.length = s.length) :
    (zio_open_memory 1 contents (contents.length : Int)).1 = ZIO_OK ∧
    (zio_write (zio_open_memory 1 contents (contents.length : Int)).2 s
      (s.length : Int)).1 = (s.length : Int) ∧
    (zio__memory_seek
      (zio_write (zio_open_memory 1 contents (contents.length : Int)).2 s
        (s.length : Int)).2 0 ZIOSeek.seekSet).1 = 0 ∧
    (zio__memory_read
      (zio__memory_seek
        (zio_write (zio_open_memory 1 contents (contents.length : Int)).2 s
          (s.length : Int)).2 0 ZIOSeek.seekSet).2
      destination (s.length : Int)).1 = (s.length : Int) ∧
    (zio__memory_read
      (zio__memory_seek
        (zio_write (zio_open_memory 1 contents (contents.length : Int)).2 s
          (s.length : Int)).2 0 ZIOSeek.seekSet).2
      destination (s.length : Int)).2.1 = s := by
  have hopen : zio_open_memory 1 contents (contents.length : Int)
      = (ZIO_OK, ⟨MemKind.rw, contents, 0, none⟩) := by
    unfold zio_open_memory
    rw [if_neg (by omega)]
  rw [hopen]
  dsimp only
  rw [show zio_write ⟨MemKind.rw, contents, 0, none⟩ s (s.length : Int)
      = zio__memory_write ⟨MemKind.rw, contents, 0, none⟩ s (s.length : Int) from rfl]
  rw [memory_write_at_zero MemKind.rw contents s none hs hcap]
  dsimp only
  rw [memory_seek_set_zero]
  dsimp only
  rw [memory_read_front MemKind.rw s (contents.drop s.length) destination none hs hd]
  exact ⟨rfl, rfl, rfl, rfl, rfl⟩

/-- C4 witness: round-trip of 3 concrete bytes through a 5-byte buffer. -/
theorem C4_roundtrip_witness :
    (zio_open_memory 1 ([0, 0, 0, 0, 0] : List UInt8)
      (([0, 0, 0, 0, 0] : List UInt8).length : Int)).1 = ZIO_OK :=
  (C4_roundtrip [1, 2, 3] [0, 0, 0, 0, 0] [9, 9, 9]
    (by decide) (by decide) (by decide)).1

end ZIO
